import Mathlib

/-!
# The Lambda event router of `examples/main.go` and the mail handler of `examples/ses_example.go`

A shallow embedding of the two example programs of `actions-aws-function-go`.

* Go byte slices, Go strings and `json.RawMessage` are lists of bytes.
* `log.Printf` is modelled by the list of log lines a function writes, in order.
* A run-time panic (index out of range, nil dereference) is an explicit `Panic` result.
* `encoding/json`, the `aws-lambda-go/events` types and the SES client are not code of this
  repository: the handlers take them as parameters (`Json`, `Aws`).  `stdJson` is a concrete
  codec on which the handlers can be evaluated.
-/

set_option autoImplicit false

namespace FunctionGo

/-! ## Go values -/

/-- A Go byte sequence: `[]byte`, `json.RawMessage` and `string`. -/
abbrev Bytes := List UInt8

/-- The UTF-8 bytes of a Go string literal. -/
def go (s : String) : Bytes := s.data.flatMap String.utf8EncodeChar

/-- A Go `error` value, identified with the text its `Error()` method returns. -/
structure GoError where
  text : Bytes
  deriving DecidableEq

/-- The dynamically typed tree `encoding/json` stores into an `interface{}`:
`nil`, `bool`, a number (kept as its literal), `string`, `[]interface{}` and
`map[string]interface{}`. -/
inductive Value where
  | null
  | bool (b : Bool)
  | number (lit : Bytes)
  | string (s : Bytes)
  | array (xs : List Value)
  | object (kvs : List (Bytes × Value))

/-- The Go type `map[string]interface{}`; the nil map is the empty list and
`m[k]` is `List.lookup k m`. -/
abbrev GoMap := List (Bytes × Value)

/-- The Go type `map[string]string`. -/
abbrev Headers := List (Bytes × Bytes)

/-- The assignment `m[k] = v` on a Go map. -/
def setKey (m : GoMap) (k : Bytes) (v : Value) : GoMap :=
  match m with
  | [] => [(k, v)]
  | (k', v') :: rest => if k' = k then (k, v) :: rest else (k', v') :: setKey rest k v

/-- A run-time panic of the Go program. -/
inductive Panic where
  | indexOutOfRange (index len : Nat)
  | nilDereference
  deriving DecidableEq

/-! ## Logging -/

/-- An argument of a `log.Printf` call. -/
inductive LogArg where
  | str (s : Bytes)
  | int (n : Int)
  | err (e : GoError)
  | val (m : GoMap)

/-- One `log.Printf` call: its format string and its arguments. -/
structure LogEntry where
  format : String
  args : List LogArg

/-- The lines a function writes to the log, oldest first. -/
abbrev Log := List LogEntry

/-! ## Types of `main.go` and of `aws-lambda-go/events` -/

/-- The struct `Request` of `main.go`. -/
structure Request where
  Name : Bytes := []
  Message : Bytes := []
  deriving DecidableEq

/-- The fields of `events.APIGatewayProxyRequest` the handlers read. -/
structure APIGatewayProxyRequest where
  HTTPMethod : Bytes := []
  Path : Bytes := []
  Body : Bytes := []
  deriving DecidableEq

/-- The fields of `events.APIGatewayProxyResponse` the handlers set. -/
structure APIGatewayProxyResponse where
  StatusCode : Int
  Headers : Headers
  Body : Bytes
  deriving DecidableEq

/-- The fields of `events.SQSMessage` the handlers read. -/
structure SQSMessage where
  MessageId : Bytes := []
  Body : Bytes := []
  deriving DecidableEq

/-- The struct `events.SQSEvent`. -/
structure SQSEvent where
  Records : List SQSMessage := []
  deriving DecidableEq

/-! ## Types of `ses_example.go` -/

/-- The struct `EmailRequest` of `ses_example.go`. -/
structure EmailRequest where
  To : Bytes := []
  Subject : Bytes := []
  Body : Bytes := []
  deriving DecidableEq

/-- The struct `EmailResponse` of `ses_example.go`. -/
structure EmailResponse where
  StatusCode : Int := 0
  MessageID : Bytes := []
  Error : Bytes := []
  deriving DecidableEq

/-- The `ses.SendEmailInput` built by `sendEmail`. -/
structure SendEmailInput where
  Source : Bytes
  ToAddresses : List Bytes
  Subject : Bytes
  Text : Bytes
  deriving DecidableEq

/-- The `ses.SendEmailOutput`; `MessageId` is a `*string`, `none` is the nil pointer. -/
structure SendEmailOutput where
  MessageId : Option Bytes
  deriving DecidableEq

/-! ## The external collaborators -/

/-- The package `encoding/json` as the programs use it.  `checkValid` is the syntax scan
`json.Unmarshal` runs first, `syntaxError` the error it reports, the `decode*` fields are the
type-directed decoding of syntactically valid input into each target type, the `encode*`
fields the text `json.Marshal` produces.  The empty input is not valid JSON. -/
structure Json where
  checkValid : Bytes → Bool
  syntaxError : Bytes → GoError
  decodeMap : Bytes → Except GoError GoMap
  decodeRequest : Bytes → Except GoError Request
  decodeAPIGatewayProxyRequest : Bytes → Except GoError APIGatewayProxyRequest
  decodeSQSEvent : Bytes → Except GoError SQSEvent
  decodeEmailRequest : Bytes → Except GoError EmailRequest
  encodeMap : GoMap → Bytes
  encodeEmailResponse : EmailResponse → Bytes
  checkValid_nil : checkValid [] = false

/-- The function `json.Unmarshal(data, &v)`: the syntax check, then the decoding into the
target. -/
def Json.Unmarshal {α : Type} (J : Json) (decode : Bytes → Except GoError α) (data : Bytes) :
    Except GoError α :=
  if J.checkValid data then decode data else .error (J.syntaxError data)

/-- The function `json.Marshal` on a `map[string]interface{}` of JSON values, which has no
failing case. -/
def Json.Marshal (J : Json) (v : GoMap) : Except GoError Bytes :=
  .ok (J.encodeMap v)

/-- The AWS SDK as `sendEmail` uses it: `config.LoadDefaultConfig` (its error, if any) and
the `SendEmail` call of the SES client built from the loaded configuration. -/
structure Aws where
  LoadDefaultConfig : Option GoError
  SendEmail : SendEmailInput → Except GoError SendEmailOutput

/-! ## `main.go` -/

/-- The function `handleAPIGateway` of `main.go`. -/
def handleAPIGateway (J : Json) (request : APIGatewayProxyRequest) :
    Log × APIGatewayProxyResponse × Option GoError :=
  let log : Log :=
    [⟨"Received API Gateway request: %s %s", [.str request.HTTPMethod, .str request.Path]⟩]
  -- Parse request body if present
  let parsed : Except GoError Request :=
    if request.Body ≠ [] then J.Unmarshal J.decodeRequest request.Body else .ok {}
  match parsed with
  | .error err =>
    (log ++ [⟨"Error parsing request body: %v", [.err err]⟩],
      { StatusCode := 400,
        Headers := [(go "Content-Type", go "application/json")],
        Body := go "\x7b\"error\": \"Invalid request body\"\x7d" },
      none)
  | .ok req =>
    -- Create response
    let response : GoMap :=
      [(go "message", .string (go "Hello from AWS Lambda with Go!")),
       (go "method", .string request.HTTPMethod),
       (go "path", .string request.Path)]
    let response :=
      if req.Name ≠ [] then
        setKey response (go "greeting") (.string (go "Hello, " ++ req.Name ++ go "!"))
      else response
    let response :=
      if req.Message ≠ [] then setKey response (go "echo") (.string req.Message)
      else response
    match J.Marshal response with
    | .error err =>
      (log ++ [⟨"Error marshaling response: %v", [.err err]⟩],
        { StatusCode := 500,
          Headers := [(go "Content-Type", go "application/json")],
          Body := go "\x7b\"error\": \"Internal server error\"\x7d" },
        none)
    | .ok responseBody =>
      (log,
        { StatusCode := 200,
          Headers := [(go "Content-Type", go "application/json"),
                      (go "Access-Control-Allow-Origin", go "*")],
          Body := responseBody },
        none)

/-- The body of the `for _, record := range sqsEvent.Records` loop of `handleSQS`: the log
after one more record. -/
def handleSQS.step (J : Json) (log : Log) (record : SQSMessage) : Log :=
  let log := log ++
    [⟨"Processing SQS message: %s", [.str record.MessageId]⟩,
     ⟨"Message body: %s", [.str record.Body]⟩]
  -- Parse the message body
  match J.Unmarshal J.decodeMap record.Body with
  | .error err => log ++ [⟨"Error parsing SQS message body: %v", [.err err]⟩] -- continue
  | .ok message => log ++ [⟨"Processing message: %+v", [.val message]⟩]

/-- The function `handleSQS` of `main.go`: the log it writes and the error it returns. -/
def handleSQS (J : Json) (sqsEvent : SQSEvent) : Log × Option GoError :=
  let log : Log :=
    [⟨"Received SQS event with %d records", [.int sqsEvent.Records.length]⟩]
  let log := sqsEvent.Records.foldl (handleSQS.step J) log
  (log, none)

/-- The function `handleGeneric` of `main.go`. -/
def handleGeneric (event : Bytes) : Log × GoMap × Option GoError :=
  let log : Log := [⟨"Received generic event: %s", [.str event]⟩]
  let response : GoMap :=
    [(go "message", .string (go "Hello from AWS Lambda with Go!")),
     (go "event", .string event)]
  (log, response, none)

/-- The `interface{}` result of `router`: the response of `handleAPIGateway`, the mapping
of `handleGeneric`, or `nil`. -/
inductive Reply where
  | apiGateway (response : APIGatewayProxyResponse)
  | generic (response : GoMap)
  | nil

/-- The result of a `router` run: the log, and the returned pair or a panic. -/
abbrev RouterResult := Log × Except Panic (Reply × Option GoError)

/-- The statement `return handleGeneric(ctx, event)` inside `router`, after the log lines
`log` were written. -/
def router.generic (log : Log) (event : Bytes) : RouterResult :=
  let (l, response, err) := handleGeneric event
  (log ++ l, .ok (.generic response, err))

/-- The block `// Check if it's an SQS event` of `router`: `some` result when the block
returns, `none` when control falls through to the default handler. -/
def router.sqs (J : Json) (eventMap : GoMap) (event : Bytes) : Option RouterResult :=
  match eventMap.lookup (go "Records") with
  | some records =>
    match records with
    | .array recordsArray =>
      if recordsArray.length > 0 then
        match (recordsArray[0]? : Option Value) with
        | none => some ([], .error (.indexOutOfRange 0 recordsArray.length))
        | some (.object firstRecord) =>
          if (firstRecord.lookup (go "eventSource")).isSome then
            match J.Unmarshal J.decodeSQSEvent event with
            | .error err =>
              some (router.generic [⟨"Error parsing SQS event: %v", [.err err]⟩] event)
            | .ok sqsEvent =>
              let (l, err) := handleSQS J sqsEvent
              some (l, .ok (.nil, err))
          else none
        | some _ => none
      else none
    | _ => none
  | none => none

/-- The function `router` of `main.go`. -/
def router (J : Json) (event : Bytes) : RouterResult :=
  -- Try to determine the event type
  match J.Unmarshal J.decodeMap event with
  | .error err => router.generic [⟨"Error parsing event: %v", [.err err]⟩] event
  | .ok eventMap =>
    -- Check if it's an API Gateway event
    if (eventMap.lookup (go "requestContext")).isSome then
      match J.Unmarshal J.decodeAPIGatewayProxyRequest event with
      | .error err =>
        router.generic [⟨"Error parsing API Gateway event: %v", [.err err]⟩] event
      | .ok apiEvent =>
        let (l, response, err) := handleAPIGateway J apiEvent
        (l, .ok (.apiGateway response, err))
    else
      -- Check if it's an SQS event
      match router.sqs J eventMap event with
      | some result => result
      | none =>
        -- Default to generic handler
        router.generic [] event

/-! ## `ses_example.go` -/

/-- The function `sendEmail` of `ses_example.go`. -/
def sendEmail (A : Aws) (req : EmailRequest) :
    Log × Except Panic (EmailResponse × Option GoError) :=
  -- Load AWS configuration
  match A.LoadDefaultConfig with
  | some err =>
    ([⟨"Error loading AWS config: %v", [.err err]⟩],
      .ok ({ StatusCode := 500, Error := go "Failed to load AWS configuration" }, none))
  | none =>
    -- Build email
    let input : SendEmailInput :=
      { Source := go "noreply@yourdomain.com",
        ToAddresses := [req.To],
        Subject := req.Subject,
        Text := req.Body }
    -- Send email
    match A.SendEmail input with
    | .error err =>
      ([⟨"Error sending email: %v", [.err err]⟩],
        .ok ({ StatusCode := 500, Error := go "Failed to send email: " ++ err.text }, none))
    | .ok output =>
      match output.MessageId with
      | none => ([], .error .nilDereference)
      | some messageId => ([], .ok ({ StatusCode := 200, MessageID := messageId }, none))

/-- The function `handleRequest` of `ses_example.go`. -/
def handleRequest (J : Json) (A : Aws) (request : APIGatewayProxyRequest) :
    Log × Except Panic (APIGatewayProxyResponse × Option GoError) :=
  match J.Unmarshal J.decodeEmailRequest request.Body with
  | .error _ =>
    ([], .ok ({ StatusCode := 400,
                Headers := [(go "Content-Type", go "application/json")],
                Body := go "\x7b\"error\": \"Invalid request body\"\x7d" }, none))
  | .ok emailReq =>
    -- Send email
    match sendEmail A emailReq with
    | (l, .error p) => (l, .error p)
    | (l, .ok (_, some _)) =>
      (l, .ok ({ StatusCode := 500,
                 Headers := [(go "Content-Type", go "application/json")],
                 Body := go "\x7b\"error\": \"Internal server error\"\x7d" }, none))
    | (l, .ok (response, none)) =>
      (l, .ok ({ StatusCode := response.StatusCode,
                 Headers := [(go "Content-Type", go "application/json")],
                 Body := J.encodeEmailResponse response }, none))

/-! ## A concrete codec

`stdJson` follows `encoding/json`: the grammar and nesting limit of its scanner, the
unquoting of string literals (escapes, surrogate pairs, U+FFFD for invalid UTF-8), the
float64 range check on numbers stored into an `interface{}`, last-wins duplicate keys of
maps, case-folded field names, the type of every field of the decoded structs (those of
`events` as `aws-lambda-go` declares them), and the sorted, HTML-escaped output of
`json.Marshal`.
Not modelled: the wording of the error texts, the float64 rendering of numbers in the
output (the literal is kept; the handlers marshal strings only), and the reuse of the
elements already in a slice when one object repeats a slice-typed key. -/

namespace StdJson

/-- An array or object the parser has opened and not yet closed. -/
inductive Frame where
  | arr (items : List Value)
  | obj (fields : List (Bytes × Value)) (key : Option Bytes)

/-- The states of a number literal in the scanner. -/
inductive Num where
  | neg | zero | int | dot | frac | e | eSign | exp
  deriving DecidableEq

/-- What the scanner expects next. -/
inductive Mode where
  | value (orClose : Bool)
  | key (orClose : Bool)
  | colon
  | str (isKey : Bool) (raw : Bytes)
  | strEsc (isKey : Bool) (raw : Bytes)
  | strU (isKey : Bool) (raw : Bytes) (left : Nat)
  | num (st : Num) (lit : Bytes)
  | lit (rest : Bytes) (v : Value)
  | after

/-- The parser state: the mode, the open containers (innermost first) and the finished
top-level value. -/
structure Scanner where
  mode : Mode
  stack : List Frame
  top : Option Value

/-- The nesting limit of the scanner. -/
def maxNestingDepth : Nat := 10000

/-- The four whitespace bytes of JSON. -/
def isSpace (c : UInt8) : Bool := c == 32 || c == 9 || c == 13 || c == 10

/-- A decimal digit. -/
def isDigit (c : UInt8) : Bool := 48 ≤ c.toNat && c.toNat ≤ 57

/-- The value of a hexadecimal digit. -/
def hexVal (c : UInt8) : Option Nat :=
  let n := c.toNat
  if 48 ≤ n ∧ n ≤ 57 then some (n - 48)
  else if 97 ≤ n ∧ n ≤ 102 then some (n - 87)
  else if 65 ≤ n ∧ n ≤ 70 then some (n - 55)
  else none

/-- The rune at the head of a byte sequence and its width, as `utf8.DecodeRune`: an
invalid or truncated encoding is U+FFFD of width 1. -/
def decodeRune (s : Bytes) : Nat × Nat :=
  let cont (c : UInt8) (lo hi : Nat) : Bool := lo ≤ c.toNat && c.toNat ≤ hi
  match s with
  | [] => (0xFFFD, 1)
  | b0 :: rest =>
    let n0 := b0.toNat
    if n0 < 0x80 then (n0, 1)
    else if 0xC2 ≤ n0 ∧ n0 ≤ 0xDF then
      match rest with
      | b1 :: _ =>
        if cont b1 0x80 0xBF then ((n0 - 0xC0) * 64 + (b1.toNat - 0x80), 2) else (0xFFFD, 1)
      | _ => (0xFFFD, 1)
    else if 0xE0 ≤ n0 ∧ n0 ≤ 0xEF then
      match rest with
      | b1 :: b2 :: _ =>
        let lo := if n0 = 0xE0 then 0xA0 else 0x80
        let hi := if n0 = 0xED then 0x9F else 0xBF
        if cont b1 lo hi && cont b2 0x80 0xBF then
          ((n0 - 0xE0) * 4096 + (b1.toNat - 0x80) * 64 + (b2.toNat - 0x80), 3)
        else (0xFFFD, 1)
      | _ => (0xFFFD, 1)
    else if 0xF0 ≤ n0 ∧ n0 ≤ 0xF4 then
      match rest with
      | b1 :: b2 :: b3 :: _ =>
        let lo := if n0 = 0xF0 then 0x90 else 0x80
        let hi := if n0 = 0xF4 then 0x8F else 0xBF
        if cont b1 lo hi && cont b2 0x80 0xBF && cont b3 0x80 0xBF then
          ((n0 - 0xF0) * 262144 + (b1.toNat - 0x80) * 4096 + (b2.toNat - 0x80) * 64
            + (b3.toNat - 0x80), 4)
        else (0xFFFD, 1)
      | _ => (0xFFFD, 1)
    else (0xFFFD, 1)

/-- The UTF-8 encoding of a rune, as `utf8.EncodeRune`. -/
def encodeRune (r : Nat) : Bytes := String.utf8EncodeChar (Char.ofNat r)

/-- The rune of a `\uXXXX` escape at the head of a byte sequence, as `getu4`. -/
def getu4 (s : Bytes) : Option Nat :=
  match s with
  | 92 :: 117 :: a :: b :: c :: d :: _ =>
    match hexVal a, hexVal b, hexVal c, hexVal d with
    | some a, some b, some c, some d => some (((a * 16 + b) * 16 + c) * 16 + d)
    | _, _, _, _ => none
  | _ => none

/-- The value of a string literal from the bytes between its quotes, as `unquote`;
`skip` bytes at the head were already consumed by the escape before them. -/
def unquote : Nat → Bytes → Bytes
  | _, [] => []
  | skip + 1, _ :: rest => unquote skip rest
  | 0, c :: rest =>
    if c == 92 then
      match rest with
      | [] => []
      | e :: _ =>
        if e == 117 then
          match getu4 (c :: rest) with
          | none => []
          | some rr =>
            if 0xD800 ≤ rr ∧ rr < 0xE000 then
              match getu4 (rest.drop 5) with
              | some rr1 =>
                if rr < 0xDC00 ∧ 0xDC00 ≤ rr1 ∧ rr1 < 0xE000 then
                  encodeRune ((rr - 0xD800) * 1024 + (rr1 - 0xDC00) + 0x10000)
                    ++ unquote 11 rest
                else encodeRune 0xFFFD ++ unquote 5 rest
              | none => encodeRune 0xFFFD ++ unquote 5 rest
            else encodeRune rr ++ unquote 5 rest
        else
          let out : UInt8 :=
            if e == 98 then 8 else if e == 102 then 12 else if e == 110 then 10
            else if e == 114 then 13 else if e == 116 then 9 else e
          out :: unquote 1 rest
    else if c.toNat < 0x80 then c :: unquote 0 rest
    else
      let (r, size) := decodeRune (c :: rest)
      encodeRune r ++ unquote (size - 1) rest

/-- A finished value goes to the innermost open container, or is the top-level value. -/
def finish (stack : List Frame) (v : Value) : Option Scanner :=
  match stack with
  | [] => some ⟨.after, [], some v⟩
  | .arr items :: rest => some ⟨.after, .arr (items ++ [v]) :: rest, none⟩
  | .obj fields (some k) :: rest => some ⟨.after, .obj (fields ++ [(k, v)]) none :: rest, none⟩
  | .obj _ none :: _ => none

/-- A byte after a finished value. -/
def stepAfter (s : Scanner) (c : UInt8) : Option Scanner :=
  if isSpace c then some { s with mode := .after }
  else
    match s.stack with
    | [] => none
    | .arr items :: rest =>
      if c == 44 then some { s with mode := .value false }
      else if c == 93 then finish rest (.array items)
      else none
    | .obj fields _ :: rest =>
      if c == 44 then some { s with mode := .key false }
      else if c == 125 then finish rest (.object fields)
      else none

/-- A byte where a value begins. -/
def stepValue (s : Scanner) (orClose : Bool) (c : UInt8) : Option Scanner :=
  if isSpace c then some s
  else if c == 123 then
    if s.stack.length < maxNestingDepth then
      some { s with mode := .key true, stack := .obj [] none :: s.stack }
    else none
  else if c == 91 then
    if s.stack.length < maxNestingDepth then
      some { s with mode := .value true, stack := .arr [] :: s.stack }
    else none
  else if c == 93 && orClose then
    match s.stack with
    | .arr items :: rest => finish rest (.array items)
    | _ => none
  else if c == 34 then some { s with mode := .str false [] }
  else if c == 45 then some { s with mode := .num .neg [c] }
  else if c == 48 then some { s with mode := .num .zero [c] }
  else if isDigit c then some { s with mode := .num .int [c] }
  else if c == 116 then some { s with mode := .lit (go "rue") (.bool true) }
  else if c == 102 then some { s with mode := .lit (go "alse") (.bool false) }
  else if c == 110 then some { s with mode := .lit (go "ull") .null }
  else none

/-- A byte inside a number literal; a byte that ends the literal is read again as the
byte after a value. -/
def stepNum (s : Scanner) (st : Num) (lit : Bytes) (c : UInt8) : Option Scanner :=
  let next (st : Num) : Option Scanner := some { s with mode := .num st (lit ++ [c]) }
  let done : Option Scanner := (finish s.stack (.number lit)).bind (stepAfter · c)
  let isE : Bool := c == 101 || c == 69
  match st with
  | .neg => if c == 48 then next .zero else if isDigit c then next .int else none
  | .zero => if c == 46 then next .dot else if isE then next .e else done
  | .int =>
    if isDigit c then next .int else if c == 46 then next .dot else if isE then next .e
    else done
  | .dot => if isDigit c then next .frac else none
  | .frac => if isDigit c then next .frac else if isE then next .e else done
  | .e => if c == 43 || c == 45 then next .eSign else if isDigit c then next .exp else none
  | .eSign => if isDigit c then next .exp else none
  | .exp => if isDigit c then next .exp else done

/-- One byte of input. -/
def step (s : Scanner) (c : UInt8) : Option Scanner :=
  match s.mode with
  | .value orClose => stepValue s orClose c
  | .key orClose =>
    if isSpace c then some s
    else if c == 34 then some { s with mode := .str true [] }
    else if c == 125 && orClose then
      match s.stack with
      | .obj fields _ :: rest => finish rest (.object fields)
      | _ => none
    else none
  | .colon =>
    if isSpace c then some s
    else if c == 58 then some { s with mode := .value false }
    else none
  | .str isKey raw =>
    if c == 34 then
      if isKey then
        match s.stack with
        | .obj fields _ :: rest =>
          some { s with mode := .colon, stack := .obj fields (some (unquote 0 raw)) :: rest }
        | _ => none
      else finish s.stack (.string (unquote 0 raw))
    else if c == 92 then some { s with mode := .strEsc isKey (raw ++ [c]) }
    else if c.toNat < 0x20 then none
    else some { s with mode := .str isKey (raw ++ [c]) }
  | .strEsc isKey raw =>
    if c == 98 || c == 102 || c == 110 || c == 114 || c == 116 || c == 92 || c == 47
        || c == 34 then
      some { s with mode := .str isKey (raw ++ [c]) }
    else if c == 117 then some { s with mode := .strU isKey (raw ++ [c]) 4 }
    else none
  | .strU isKey raw left =>
    if (hexVal c).isSome then
      some { s with mode := if left ≤ 1 then .str isKey (raw ++ [c])
                            else .strU isKey (raw ++ [c]) (left - 1) }
    else none
  | .num st lit => stepNum s st lit c
  | .lit rest v =>
    match rest with
    | [] => none
    | b :: rest =>
      if c == b then
        if rest.isEmpty then finish s.stack v else some { s with mode := .lit rest v }
      else none
  | .after => stepAfter s c

/-- The top-level value once the input has ended. -/
def eof (s : Scanner) : Option Value :=
  match s.mode, s.stack with
  | .after, [] => s.top
  | .num st lit, [] =>
    if st = .zero ∨ st = .int ∨ st = .frac ∨ st = .exp then some (.number lit) else none
  | _, _ => none

/-- The syntax tree of a JSON text, `none` on a syntax error.  Objects keep every field
in source order. -/
def parse (data : Bytes) : Option Value :=
  (data.foldl (fun s c => s.bind (step · c)) (some ⟨.value false, [], none⟩)).bind eof

/-- The digits of a decimal literal as a number. -/
def digitsVal (ds : Bytes) : Nat := ds.foldl (fun n c => n * 10 + (c.toNat - 48)) 0

/-- A number literal is out of the float64 range, as `strconv.ParseFloat` reports it: its
magnitude is at least `2^1024 - 2^970`, half an ulp above the largest float64. -/
def overflowsFloat64 (lit : Bytes) : Bool :=
  let isE (c : UInt8) : Bool := c == 101 || c == 69
  let body := lit.dropWhile (· == 45)
  let mant := body.takeWhile (fun c => !isE c)
  let expo := (body.dropWhile (fun c => !isE c)).drop 1
  let intDigits := mant.takeWhile isDigit
  let fracDigits := (mant.dropWhile isDigit).drop 1
  let m := digitsVal (intDigits ++ fracDigits)
  let expoVal : Int :=
    match expo with
    | [] => 0
    | s :: ds =>
      if s == 45 then -(digitsVal ds : Int) else if s == 43 then digitsVal ds
      else digitsVal (s :: ds)
  let e : Int := expoVal - fracDigits.length
  let d : Int := (Nat.repr m).length
  let limit : Nat := 2 ^ 1024 - 2 ^ 970
  if m = 0 then false
  else if d + e ≤ 308 then false
  else if d + e > 309 then true
  else if 0 ≤ e then decide (limit ≤ m * 10 ^ e.toNat)
  else decide (limit * 10 ^ (-e).toNat ≤ m)

mutual
/-- Some number of the tree is out of the float64 range. -/
def rangeError : Value → Bool
  | .number lit => overflowsFloat64 lit
  | .array xs => rangeErrorList xs
  | .object kvs => rangeErrorFields kvs
  | _ => false
/-- Some number of the values is out of the float64 range. -/
def rangeErrorList : List Value → Bool
  | [] => false
  | x :: xs => rangeError x || rangeErrorList xs
/-- Some number of the field values is out of the float64 range. -/
def rangeErrorFields : List (Bytes × Value) → Bool
  | [] => false
  | (_, v) :: kvs => rangeError v || rangeErrorFields kvs
end

mutual
/-- The value stored into an `interface{}`: every object becomes a Go map, in which a
repeated key keeps its last value. -/
def toInterface : Value → Value
  | .array xs => .array (toInterfaceList xs)
  | .object kvs => .object (toInterfaceFields kvs [])
  | v => v
/-- The values stored into a `[]interface{}`. -/
def toInterfaceList : List Value → List Value
  | [] => []
  | x :: xs => toInterface x :: toInterfaceList xs
/-- The fields stored into a `map[string]interface{}` that already holds `acc`. -/
def toInterfaceFields : List (Bytes × Value) → GoMap → GoMap
  | [], acc => acc
  | (k, v) :: kvs, acc => toInterfaceFields kvs (setKey acc k (toInterface v))
end

/-- The error of a syntactically invalid input. -/
def syntaxError (_ : Bytes) : GoError := ⟨go "json: syntax error"⟩

/-- The error of a value that does not fit the Go type it is decoded into. -/
def typeError : GoError := ⟨go "json: cannot unmarshal value into Go value"⟩

/-- Decoding into a `map[string]interface{}`. -/
def decodeMap (data : Bytes) : Except GoError GoMap :=
  match parse data with
  | none => .error (syntaxError data)
  | some v =>
    if rangeError v then .error typeError
    else
      match v with
      | .object kvs => .ok (toInterfaceFields kvs [])
      | .null => .ok []
      | _ => .error typeError

/-- The case fold of a JSON key that decides which struct field it names: ASCII letters
in lower case, and the two other runes that fold to an ASCII letter, the Kelvin sign
(to `k`) and the long s (to `s`); `skip` bytes at the head belong to the rune before
them. -/
def foldKey : Nat → Bytes → Bytes
  | _, [] => []
  | skip + 1, _ :: rest => foldKey skip rest
  | 0, c :: rest =>
    if c == 0xE2 && rest.take 2 == [0x84, 0xAA] then 107 :: foldKey 2 rest
    else if c == 0xC5 && rest.take 1 == [0xBF] then 115 :: foldKey 1 rest
    else (if 65 ≤ c.toNat ∧ c.toNat ≤ 90 then c + 32 else c) :: foldKey 0 rest

/-- A JSON key names a struct field: equal up to case folding. -/
def foldEq (key name : Bytes) : Bool := foldKey 0 key == foldKey 0 name

/-- The Go types of the struct fields that are decoded. -/
inductive GoType where
  | string
  | bool
  | int64
  | bytes
  | any
  | slice (elem : GoType)
  | map (elem : GoType)
  | struct (fields : List (Bytes × GoType))

/-- A number literal is an integer between `lo` and `hi`, as `strconv.ParseInt` and
`strconv.ParseUint` accept it: digits only, after a minus sign when `lo` is negative. -/
def isInteger (lo hi : Int) (lit : Bytes) : Bool :=
  let digits := if lo < 0 then lit.dropWhile (· == 45) else lit
  let value : Int := if digits.length < lit.length then -(digitsVal digits : Int)
                     else digitsVal digits
  !digits.isEmpty && digits.all isDigit && decide (lo ≤ value) && decide (value ≤ hi)

/-- A string is standard base64 with padding, as `base64.StdEncoding` decodes it: line
breaks are skipped, the rest is groups of four characters of the alphabet, the last of
which may end in one or two `=`. -/
def isBase64 (s : Bytes) : Bool :=
  let isAlpha (c : UInt8) : Bool :=
    let n := c.toNat
    (65 ≤ n && n ≤ 90) || (97 ≤ n && n ≤ 122) || (48 ≤ n && n ≤ 57) || n == 43 || n == 47
  let text := s.filter (fun c => c != 13 && c != 10)
  let body := (text.reverse.dropWhile (· == 61)).reverse
  text.length % 4 == 0 && text.length - body.length ≤ 2 && body.all isAlpha

/-- A value can be stored into a `uint8`, an element of a `[]byte` written as an array. -/
def fitsUint8 : Value → Bool
  | .null => true
  | .number lit => isInteger 0 255 lit
  | _ => false

mutual
/-- A value can be stored into a Go variable of the given type without an error.
`null` can be stored into every type. -/
def fits : GoType → Value → Bool
  | _, .null => true
  | .string, .string _ => true
  | .bool, .bool _ => true
  | .int64, .number lit => isInteger (-(2 ^ 63)) (2 ^ 63 - 1) lit
  | .bytes, .string s => isBase64 s
  | .bytes, .array xs => xs.all fitsUint8
  | .any, v => !rangeError v
  | .slice t, .array xs => xs.all (fun x => fits t x)
  | .map t, .object kvs => kvs.all (fun kv => fits t kv.2)
  | .struct fields, .object kvs => kvs.all (fun kv => fitsField fields kv.1 kv.2)
  | _, _ => false
/-- The value of the key `key` can be stored into the field the key names, if any. -/
def fitsField : List (Bytes × GoType) → Bytes → Value → Bool
  | [], _, _ => true
  | (name, t) :: fields, key, v =>
    if foldEq key name then fits t v else fitsField fields key v
end

/-- A struct field that is read back: its JSON name and how a value is stored into it. -/
abbrev Field (α : Type) := Bytes × (α → Value → α)

/-- A field of Go type `string`: a string is stored, `null` leaves the field as it is. -/
def stringField {α : Type} (name : String) (set : α → Bytes → α) : Field α :=
  (go name, fun a v =>
    match v with
    | .string s => set a s
    | _ => a)

/-- The struct after a syntax tree was decoded into one that held `zero`: every field
of the object is stored in source order, unknown keys are skipped. -/
def decodeStruct {α : Type} (fields : List (Field α)) (zero : α) (v : Value) : α :=
  match v with
  | .object kvs =>
    kvs.foldl (fun (a : α) (kv : Bytes × Value) =>
      match fields.find? (fun f => foldEq kv.1 f.1) with
      | none => a
      | some f => f.2 a kv.2) zero
  | _ => zero

/-- The function `json.Unmarshal` into a zero struct of type `schema`, from the input
bytes: a type error when some value does not fit the field it is stored into. -/
def decodeInto {α : Type} (schema : GoType) (fields : List (Field α)) (zero : α)
    (data : Bytes) : Except GoError α :=
  match parse data with
  | none => .error (syntaxError data)
  | some v => if fits schema v then .ok (decodeStruct fields zero v) else .error typeError

/-- A struct type from the JSON names and the types of its fields. -/
def structOf (fields : List (String × GoType)) : GoType :=
  .struct (fields.map fun f => (go f.1, f.2))

/-- The struct `Request` of `main.go`. -/
def requestType : GoType :=
  structOf [("name", .string), ("message", .string)]

/-- The fields of `Request`. -/
def requestFields : List (Field Request) :=
  [stringField "name" (fun r s => { r with Name := s }),
   stringField "message" (fun r s => { r with Message := s })]

/-- The struct `events.APIGatewayRequestIdentity` of `aws-lambda-go`. -/
def identityType : GoType :=
  structOf [("cognitoIdentityPoolId", .string), ("accountId", .string),
    ("cognitoIdentityId", .string), ("caller", .string), ("apiKey", .string),
    ("apiKeyId", .string), ("accessKey", .string), ("sourceIp", .string),
    ("cognitoAuthenticationType", .string), ("cognitoAuthenticationProvider", .string),
    ("userArn", .string), ("userAgent", .string), ("user", .string)]

/-- The struct `events.APIGatewayProxyRequestContext` of `aws-lambda-go`. -/
def requestContextType : GoType :=
  structOf [("accountId", .string), ("resourceId", .string), ("operationName", .string),
    ("stage", .string), ("domainName", .string), ("domainPrefix", .string),
    ("requestId", .string), ("extendedRequestId", .string), ("protocol", .string),
    ("identity", identityType), ("resourcePath", .string), ("path", .string),
    ("authorizer", .map .any), ("httpMethod", .string), ("requestTime", .string),
    ("requestTimeEpoch", .int64), ("apiId", .string)]

/-- The struct `events.APIGatewayProxyRequest` of `aws-lambda-go`. -/
def apiGatewayType : GoType :=
  structOf [("resource", .string), ("path", .string), ("httpMethod", .string),
    ("headers", .map .string), ("multiValueHeaders", .map (.slice .string)),
    ("queryStringParameters", .map .string),
    ("multiValueQueryStringParameters", .map (.slice .string)),
    ("pathParameters", .map .string), ("stageVariables", .map .string),
    ("requestContext", requestContextType), ("body", .string),
    ("isBase64Encoded", .bool)]

/-- The fields of `events.APIGatewayProxyRequest` the handlers read. -/
def apiGatewayFields : List (Field APIGatewayProxyRequest) :=
  [stringField "httpMethod" (fun r s => { r with HTTPMethod := s }),
   stringField "path" (fun r s => { r with Path := s }),
   stringField "body" (fun r s => { r with Body := s })]

/-- The struct `events.SQSMessageAttribute` of `aws-lambda-go`. -/
def sqsMessageAttributeType : GoType :=
  structOf [("stringValue", .string), ("binaryValue", .bytes),
    ("stringListValues", .slice .string), ("binaryListValues", .slice .bytes),
    ("dataType", .string)]

/-- The struct `events.SQSMessage` of `aws-lambda-go`. -/
def sqsMessageType : GoType :=
  structOf [("messageId", .string), ("receiptHandle", .string), ("body", .string),
    ("md5OfBody", .string), ("md5OfMessageAttributes", .string),
    ("attributes", .map .string), ("messageAttributes", .map sqsMessageAttributeType),
    ("eventSourceARN", .string), ("eventSource", .string), ("awsRegion", .string)]

/-- The struct `events.SQSEvent` of `aws-lambda-go`. -/
def sqsEventType : GoType :=
  structOf [("Records", .slice sqsMessageType)]

/-- The fields of `events.SQSMessage` the handlers read. -/
def sqsMessageFields : List (Field SQSMessage) :=
  [stringField "messageId" (fun r s => { r with MessageId := s }),
   stringField "body" (fun r s => { r with Body := s })]

/-- The field `Records` of `events.SQSEvent`, a slice of messages. -/
def sqsEventFields : List (Field SQSEvent) :=
  [(go "Records", fun a v =>
    match v with
    | .array items => { Records := items.map (decodeStruct sqsMessageFields {}) }
    | _ => a)]

/-- The struct `EmailRequest` of `ses_example.go`. -/
def emailRequestType : GoType :=
  structOf [("to", .string), ("subject", .string), ("body", .string)]

/-- The fields of `EmailRequest`. -/
def emailRequestFields : List (Field EmailRequest) :=
  [stringField "to" (fun r s => { r with To := s }),
   stringField "subject" (fun r s => { r with Subject := s }),
   stringField "body" (fun r s => { r with Body := s })]

/-- A hexadecimal digit. -/
def hexDigit (n : Nat) : UInt8 := if n < 10 then UInt8.ofNat (48 + n) else UInt8.ofNat (87 + n)

/-- The inside of a string literal of `json.Marshal`, with HTML escaping; `skip` bytes at
the head were already written. -/
def escape : Nat → Bytes → Bytes
  | _, [] => []
  | skip + 1, _ :: rest => escape skip rest
  | 0, c :: rest =>
    let n := c.toNat
    if n < 0x80 then
      (if c == 92 || c == 34 then [92, c]
       else if c == 8 then [92, 98]
       else if c == 12 then [92, 102]
       else if c == 10 then [92, 110]
       else if c == 13 then [92, 114]
       else if c == 9 then [92, 116]
       else if n < 0x20 || c == 60 || c == 62 || c == 38 then
         [92, 117, 48, 48, hexDigit (n / 16), hexDigit (n % 16)]
       else [c]) ++ escape 0 rest
    else
      let (r, size) := decodeRune (c :: rest)
      if r = 0xFFFD ∧ size = 1 then go "\\ufffd" ++ escape 0 rest
      else if r = 0x2028 ∨ r = 0x2029 then
        go "\\u202" ++ [hexDigit (r % 16)] ++ escape (size - 1) rest
      else (c :: rest).take size ++ escape (size - 1) rest

/-- A string literal of `json.Marshal`. -/
def quote (s : Bytes) : Bytes := [34] ++ escape 0 s ++ [34]

/-- The order of Go strings: byte-wise lexicographic. -/
def keyLe : Bytes → Bytes → Bool
  | [], _ => true
  | _ :: _, [] => false
  | a :: as, b :: bs => a.toNat < b.toNat || (a == b && keyLe as bs)

/-- Insertion into a list sorted by key. -/
def insertField {α : Type} (kv : Bytes × α) : List (Bytes × α) → List (Bytes × α)
  | [] => [kv]
  | x :: xs => if keyLe kv.1 x.1 then kv :: x :: xs else x :: insertField kv xs

/-- The fields sorted by key. -/
def sortFields {α : Type} (m : List (Bytes × α)) : List (Bytes × α) :=
  m.foldr insertField []

/-- The texts joined by commas. -/
def joinComma : List Bytes → Bytes
  | [] => []
  | [x] => x
  | x :: xs => x ++ [44] ++ joinComma xs

/-- The text of an object from its fields and their encoded values: keys in sorted
order. -/
def encodeObject (fs : List (Bytes × Bytes)) : Bytes :=
  [123] ++ joinComma ((sortFields fs).map fun kv => quote kv.1 ++ [58] ++ kv.2) ++ [125]

mutual
/-- The text `json.Marshal` writes for a value. -/
def encodeValue : Value → Bytes
  | .null => go "null"
  | .bool true => go "true"
  | .bool false => go "false"
  | .number lit => lit
  | .string s => quote s
  | .array xs => [91] ++ joinComma (encodeList xs) ++ [93]
  | .object kvs => encodeObject (encodeFields kvs)
/-- The texts of the elements of an array. -/
def encodeList : List Value → List Bytes
  | [] => []
  | x :: xs => encodeValue x :: encodeList xs
/-- The texts of the field values of an object. -/
def encodeFields : List (Bytes × Value) → List (Bytes × Bytes)
  | [] => []
  | (k, v) :: kvs => (k, encodeValue v) :: encodeFields kvs
end

/-- The text `json.Marshal` writes for an `EmailResponse`: `messageId` and `error` are
left out when empty. -/
def encodeEmailResponse (r : EmailResponse) : Bytes :=
  [123] ++ go "\"statusCode\":" ++ go (toString r.StatusCode)
    ++ (if r.MessageID ≠ [] then go ",\"messageId\":" ++ quote r.MessageID else [])
    ++ (if r.Error ≠ [] then go ",\"error\":" ++ quote r.Error else [])
    ++ [125]

end StdJson

/-- The concrete codec. -/
def stdJson : Json where
  checkValid data := (StdJson.parse data).isSome
  syntaxError := StdJson.syntaxError
  decodeMap := StdJson.decodeMap
  decodeRequest := StdJson.decodeInto StdJson.requestType StdJson.requestFields {}
  decodeAPIGatewayProxyRequest :=
    StdJson.decodeInto StdJson.apiGatewayType StdJson.apiGatewayFields {}
  decodeSQSEvent := StdJson.decodeInto StdJson.sqsEventType StdJson.sqsEventFields {}
  decodeEmailRequest := StdJson.decodeInto StdJson.emailRequestType StdJson.emailRequestFields {}
  encodeMap m := StdJson.encodeObject (StdJson.encodeFields m)
  encodeEmailResponse := StdJson.encodeEmailResponse
  checkValid_nil := rfl

/-! ## Sample inputs -/

/-- The request `POST /hello` with the given body. -/
def postHello (body : Bytes) : APIGatewayProxyRequest :=
  { HTTPMethod := go "POST", Path := go "/hello", Body := body }

/-- A batch of three messages; the body of the second is not valid JSON. -/
def sampleBatch : List SQSMessage :=
  [{ MessageId := go "m1", Body := go "\x7b\"job\":1\x7d" },
   { MessageId := go "m2", Body := go "oops" },
   { MessageId := go "m3", Body := go "\x7b\x7d" }]

/-- The request `POST /send` whose body asks for a mail to `a@b.c`. -/
def sendRequest : APIGatewayProxyRequest :=
  { HTTPMethod := go "POST", Path := go "/send",
    Body := go "\x7b\"to\":\"a@b.c\",\"subject\":\"hi\",\"body\":\"text\"\x7d" }

/-- An SES client whose every `SendEmail` call fails with the given error text. -/
def rejecting (cause : String) : Aws :=
  { LoadDefaultConfig := none, SendEmail := fun _ => .error ⟨go cause⟩ }

/-! ## Facts about the handlers -/

/-- The generic handler never returns an error, and its reply holds the fixed message and
the raw event. -/
theorem router_generic_eq (log : Log) (event : Bytes) :
    router.generic log event =
      (log ++ [⟨"Received generic event: %s", [.str event]⟩],
        .ok (.generic [(go "message", .string (go "Hello from AWS Lambda with Go!")),
                       (go "event", .string event)], none)) := rfl

/-- The API Gateway handler never returns an error. -/
theorem handleAPIGateway_err (J : Json) (request : APIGatewayProxyRequest) :
    (handleAPIGateway J request).2.2 = none := by
  unfold handleAPIGateway
  dsimp only
  split
  · rfl
  · simp only [Json.Marshal]

/-- The SQS block of `router` never panics and never returns an error: when it returns,
it returns the generic reply after a failed typed decode, or `nil` after `handleSQS`. -/
theorem router_sqs_cases (J : Json) (eventMap : GoMap) (event : Bytes) (result : RouterResult)
    (h : router.sqs J eventMap event = some result) :
    (∃ err, J.Unmarshal J.decodeSQSEvent event = .error err ∧
        result = router.generic [⟨"Error parsing SQS event: %v", [.err err]⟩] event) ∨
    (∃ sqsEvent, J.Unmarshal J.decodeSQSEvent event = .ok sqsEvent ∧
        result = ((handleSQS J sqsEvent).1, .ok (.nil, none))) := by
  unfold router.sqs at h
  cases hrec : List.lookup (go "Records") eventMap with
  | none => simp [hrec] at h
  | some records =>
    cases records with
    | array recordsArray =>
      cases recordsArray with
      | nil => simp [hrec] at h
      | cons first rest =>
        cases first with
        | object firstRecord =>
          simp only [hrec, List.length_cons, List.getElem?_cons_zero] at h
          by_cases hsrc : (List.lookup (go "eventSource") firstRecord).isSome = true
          · cases hdec : J.Unmarshal J.decodeSQSEvent event with
            | error err =>
              simp [hsrc, hdec] at h
              exact Or.inl ⟨err, rfl, h.symm⟩
            | ok sqsEvent =>
              simp [hsrc, hdec] at h
              exact Or.inr ⟨sqsEvent, rfl, h.symm⟩
          · simp [hsrc] at h
        | _ => simp [hrec] at h
    | _ => simp [hrec] at h

/-- The log of `handleAPIGateway` has no line of another handler: every line is one of
its three `log.Printf` calls. -/
theorem handleAPIGateway_log (J : Json) (request : APIGatewayProxyRequest) :
    ∀ entry ∈ (handleAPIGateway J request).1,
      entry.format = "Received API Gateway request: %s %s" ∨
      entry.format = "Error parsing request body: %v" ∨
      entry.format = "Error marshaling response: %v" := by
  unfold handleAPIGateway
  dsimp only
  split
  · intro entry hmem
    simp only [List.cons_append, List.nil_append, List.mem_cons, List.mem_singleton,
      List.mem_nil_iff, or_false] at hmem
    rcases hmem with h | h <;> subst h <;> simp
  · simp only [Json.Marshal]
    intro entry hmem
    simp only [List.mem_singleton] at hmem
    subst hmem
    simp

/-- The loop of `handleSQS` from a log `log` appends the lines of each record in turn. -/
theorem handleSQS_foldl (J : Json) (records : List SQSMessage) (log : Log) :
    records.foldl (handleSQS.step J) log = log ++ records.flatMap (handleSQS.step J []) := by
  induction records generalizing log with
  | nil => simp
  | cons r rs ih =>
    rw [List.foldl_cons, ih, List.flatMap_cons, ← List.append_assoc]
    congr 1
    unfold handleSQS.step
    dsimp only
    split <;> simp

/-- The log of `handleSQS`: the line with the number of records, then the lines of each
record in the order of the batch. -/
theorem handleSQS_log (J : Json) (sqsEvent : SQSEvent) :
    (handleSQS J sqsEvent).1 =
      ⟨"Received SQS event with %d records", [.int sqsEvent.Records.length]⟩ ::
        sqsEvent.Records.flatMap (handleSQS.step J []) := by
  unfold handleSQS
  dsimp only
  rw [handleSQS_foldl]
  rfl

/-- The SQS block of `router` on a batch whose first record is a mapping with the key
"eventSource": the typed decode, then `handleSQS` or the generic reply. -/
theorem router_sqs_taken (J : Json) (eventMap : GoMap) (event : Bytes)
    (firstRecord : GoMap) (rest : List Value)
    (hrec : eventMap.lookup (go "Records") = some (.array (.object firstRecord :: rest)))
    (hsrc : (firstRecord.lookup (go "eventSource")).isSome = true) :
    router.sqs J eventMap event =
      match J.Unmarshal J.decodeSQSEvent event with
      | .error err =>
        some (router.generic [⟨"Error parsing SQS event: %v", [.err err]⟩] event)
      | .ok sqsEvent => some ((handleSQS J sqsEvent).1, .ok (.nil, none)) := by
  unfold router.sqs
  simp only [hrec, List.length_cons, List.getElem?_cons_zero, hsrc, if_true]
  cases J.Unmarshal J.decodeSQSEvent event with
  | error err => simp
  | ok sqsEvent => simp [handleSQS]

/-- The SQS block of `router` falls through when "Records" is absent, is not a sequence,
is empty, or when its first element is not a mapping with the key "eventSource". -/
theorem router_sqs_fallthrough (J : Json) (eventMap : GoMap) (event : Bytes)
    (h : ∀ firstRecord rest,
      eventMap.lookup (go "Records") = some (.array (.object firstRecord :: rest)) →
      firstRecord.lookup (go "eventSource") = none) :
    router.sqs J eventMap event = none := by
  unfold router.sqs
  cases hrec : List.lookup (go "Records") eventMap with
  | none => rfl
  | some records =>
    cases records with
    | array recordsArray =>
      cases recordsArray with
      | nil => simp
      | cons first rest =>
        cases first with
        | object firstRecord =>
          have hnone := h firstRecord rest hrec
          simp [hnone]
        | _ => simp
    | _ => rfl

/-- The API Gateway block of `router`: the typed decode, then `handleAPIGateway` or the
generic reply. -/
theorem router_api_block (J : Json) (event : Bytes) (eventMap : GoMap)
    (hmap : J.Unmarshal J.decodeMap event = .ok eventMap)
    (hctx : (eventMap.lookup (go "requestContext")).isSome = true) :
    router J event =
      match J.Unmarshal J.decodeAPIGatewayProxyRequest event with
      | .error err =>
        router.generic [⟨"Error parsing API Gateway event: %v", [.err err]⟩] event
      | .ok apiEvent =>
        ((handleAPIGateway J apiEvent).1,
          .ok (.apiGateway (handleAPIGateway J apiEvent).2.1, none)) := by
  unfold router
  simp only [hmap, hctx, if_true]
  cases J.Unmarshal J.decodeAPIGatewayProxyRequest event with
  | error err => rfl
  | ok apiEvent =>
    have herr := handleAPIGateway_err J apiEvent
    show (_, Except.ok (_, (handleAPIGateway J apiEvent).2.2)) = _
    rw [herr]

/-- The SQS block of `router` as the result of `router`, for an event without
"requestContext" whose first record is a mapping with the key "eventSource". -/
theorem router_sqs_block (J : Json) (event : Bytes) (eventMap firstRecord : GoMap)
    (rest : List Value)
    (hmap : J.Unmarshal J.decodeMap event = .ok eventMap)
    (hctx : eventMap.lookup (go "requestContext") = none)
    (hrec : eventMap.lookup (go "Records") = some (.array (.object firstRecord :: rest)))
    (hsrc : (firstRecord.lookup (go "eventSource")).isSome = true) :
    router J event =
      match J.Unmarshal J.decodeSQSEvent event with
      | .error err => router.generic [⟨"Error parsing SQS event: %v", [.err err]⟩] event
      | .ok sqsEvent => ((handleSQS J sqsEvent).1, .ok (.nil, none)) := by
  unfold router
  simp only [hmap, hctx, Option.isSome_none, Bool.false_eq_true, if_false,
    router_sqs_taken J eventMap event firstRecord rest hrec hsrc]
  cases J.Unmarshal J.decodeSQSEvent event <;> rfl

/-- The lines `handleSQS` writes for one record: the message id, the body, then the parse
error or the decoded message. -/
theorem handleSQS_step (J : Json) (record : SQSMessage) :
    handleSQS.step J [] record =
      [⟨"Processing SQS message: %s", [.str record.MessageId]⟩,
       ⟨"Message body: %s", [.str record.Body]⟩,
       match J.Unmarshal J.decodeMap record.Body with
       | .error err => ⟨"Error parsing SQS message body: %v", [.err err]⟩
       | .ok message => ⟨"Processing message: %+v", [.val message]⟩] := by
  unfold handleSQS.step
  dsimp only
  split <;> rfl

/-- C1: for every byte sequence `router` returns without a panic, with a nil error and
exactly one of three outcomes: the response of `handleAPIGateway` on the typed event, the
reply of `handleGeneric` on the raw event, or `nil` after `handleSQS` ran on the typed
batch. The index `recordsArray[0]` in particular is never out of range. -/
theorem router_total (J : Json) (event : Bytes) :
    ∃ reply : Reply, (router J event).2 = .ok (reply, none) ∧
      ((∃ apiEvent, J.Unmarshal J.decodeAPIGatewayProxyRequest event = .ok apiEvent ∧
          reply = .apiGateway (handleAPIGateway J apiEvent).2.1) ∨
       reply = .generic (handleGeneric event).2.1 ∨
       (∃ sqsEvent, J.Unmarshal J.decodeSQSEvent event = .ok sqsEvent ∧
          (handleSQS J sqsEvent).2 = none ∧ reply = .nil)) := by
  unfold router
  split
  · exact ⟨_, rfl, Or.inr (Or.inl rfl)⟩
  · rename_i eventMap _
    split
    · split
      · exact ⟨_, rfl, Or.inr (Or.inl rfl)⟩
      · rename_i apiEvent hok
        refine ⟨.apiGateway (handleAPIGateway J apiEvent).2.1, ?_, Or.inl ⟨apiEvent, hok, rfl⟩⟩
        have herr := handleAPIGateway_err J apiEvent
        show Except.ok (_, (handleAPIGateway J apiEvent).2.2) = _
        rw [herr]
    · split
      · rename_i result hres
        rcases router_sqs_cases J eventMap event result hres with ⟨err, _, hr⟩ | ⟨ev, hok, hr⟩
        · subst hr
          exact ⟨_, rfl, Or.inr (Or.inl rfl)⟩
        · subst hr
          exact ⟨.nil, rfl, Or.inr (Or.inr ⟨ev, hok, rfl, rfl⟩)⟩
      · exact ⟨_, rfl, Or.inr (Or.inl rfl)⟩

/-- C2: an event that decodes to a mapping with the key "requestContext" takes the API
Gateway block of `router`, whatever its other keys: the result is the response of
`handleAPIGateway` on the typed event, or, when the typed decode fails, the generic reply
written from inside that block. The result is never the `nil` of the SQS handler and the
log has no line of `handleSQS`. -/
theorem router_requestContext (J : Json) (event : Bytes) (eventMap : GoMap)
    (hmap : J.Unmarshal J.decodeMap event = .ok eventMap)
    (hctx : (eventMap.lookup (go "requestContext")).isSome = true) :
    ((∃ apiEvent, J.Unmarshal J.decodeAPIGatewayProxyRequest event = .ok apiEvent ∧
        router J event = ((handleAPIGateway J apiEvent).1,
          .ok (.apiGateway (handleAPIGateway J apiEvent).2.1, none))) ∨
     (∃ err, J.Unmarshal J.decodeAPIGatewayProxyRequest event = .error err ∧
        router J event =
          router.generic [⟨"Error parsing API Gateway event: %v", [.err err]⟩] event)) ∧
    (router J event).2 ≠ .ok (.nil, none) ∧
    ∀ entry ∈ (router J event).1, entry.format ≠ "Received SQS event with %d records" := by
  have hrouter := router_api_block J event eventMap hmap hctx
  cases hdec : J.Unmarshal J.decodeAPIGatewayProxyRequest event with
  | error err =>
    rw [hdec] at hrouter
    dsimp only at hrouter
    refine ⟨Or.inr ⟨err, rfl, hrouter⟩, ?_, ?_⟩
    · rw [hrouter, router_generic_eq]
      simp
    · rw [hrouter, router_generic_eq]
      intro entry hmem
      simp only [List.cons_append, List.nil_append, List.mem_cons, List.mem_singleton,
        List.mem_nil_iff, or_false] at hmem
      rcases hmem with h | h <;> subst h <;> dsimp only <;> decide
  | ok apiEvent =>
    rw [hdec] at hrouter
    dsimp only at hrouter
    refine ⟨Or.inl ⟨apiEvent, rfl, hrouter⟩, ?_, ?_⟩
    · rw [hrouter]
      simp
    · rw [hrouter]
      intro entry hmem
      rcases handleAPIGateway_log J apiEvent entry hmem with h | h | h <;> rw [h] <;> decide

set_option maxRecDepth 100000 in
/-- C2 at the event `{"requestContext":{},"Records":[{"eventSource":"aws:sqs"}]}`, which
also has the shape of an SQS batch. -/
theorem router_requestContext_witness :
    (router stdJson
      (go "\x7b\"requestContext\":\x7b\x7d,\"Records\":[\x7b\"eventSource\":\"aws:sqs\"\x7d]\x7d")).2
      ≠ .ok (.nil, none) :=
  (router_requestContext stdJson
    (go "\x7b\"requestContext\":\x7b\x7d,\"Records\":[\x7b\"eventSource\":\"aws:sqs\"\x7d]\x7d")
    [(go "requestContext", .object []),
     (go "Records", .array [.object [(go "eventSource", .string (go "aws:sqs"))]])]
    rfl rfl).2.1

/-- C3: an event that decodes to a mapping without "requestContext" whose "Records" is a
non-empty sequence starting with a mapping that has the key "eventSource" takes the SQS
block of `router`, whatever the value of that key and the later elements: the result is
`nil` after `handleSQS` ran on the typed batch, or, when the typed decode fails, the
generic reply written from inside that block. It is neither a response of the API Gateway
handler nor the run of the default generic handler. -/
theorem router_sqs_batch (J : Json) (event : Bytes) (eventMap firstRecord : GoMap)
    (rest : List Value)
    (hmap : J.Unmarshal J.decodeMap event = .ok eventMap)
    (hctx : eventMap.lookup (go "requestContext") = none)
    (hrec : eventMap.lookup (go "Records") = some (.array (.object firstRecord :: rest)))
    (hsrc : (firstRecord.lookup (go "eventSource")).isSome = true) :
    ((∃ sqsEvent, J.Unmarshal J.decodeSQSEvent event = .ok sqsEvent ∧
        router J event = ((handleSQS J sqsEvent).1, .ok (.nil, none))) ∨
     (∃ err, J.Unmarshal J.decodeSQSEvent event = .error err ∧
        router J event = router.generic [⟨"Error parsing SQS event: %v", [.err err]⟩] event)) ∧
    (∀ response err, (router J event).2 ≠ .ok (.apiGateway response, err)) ∧
    router J event ≠ router.generic [] event := by
  have hrouter := router_sqs_block J event eventMap firstRecord rest hmap hctx hrec hsrc
  cases hdec : J.Unmarshal J.decodeSQSEvent event with
  | error err =>
    rw [hdec] at hrouter
    dsimp only at hrouter
    refine ⟨Or.inr ⟨err, rfl, hrouter⟩, ?_, ?_⟩
    · intro response e
      rw [hrouter, router_generic_eq]
      simp
    · rw [hrouter, router_generic_eq, router_generic_eq]
      intro heq
      have hlen := congrArg (fun r : RouterResult => r.1.length) heq
      simp at hlen
  | ok sqsEvent =>
    rw [hdec] at hrouter
    dsimp only at hrouter
    refine ⟨Or.inl ⟨sqsEvent, rfl, hrouter⟩, ?_, ?_⟩
    · intro response e
      rw [hrouter]
      simp
    · rw [hrouter, router_generic_eq]
      intro heq
      have hres := congrArg (fun r : RouterResult => r.2) heq
      simp at hres

set_option maxRecDepth 100000 in
/-- C3 at the event `{"Records":[{"eventSource":"aws:sqs"},7]}`: the run is not the run of
the default generic handler. -/
theorem router_sqs_batch_witness :
    router stdJson (go "\x7b\"Records\":[\x7b\"eventSource\":\"aws:sqs\"\x7d,7]\x7d") ≠
      router.generic [] (go "\x7b\"Records\":[\x7b\"eventSource\":\"aws:sqs\"\x7d,7]\x7d") :=
  (router_sqs_batch stdJson (go "\x7b\"Records\":[\x7b\"eventSource\":\"aws:sqs\"\x7d,7]\x7d")
    [(go "Records", .array [.object [(go "eventSource", .string (go "aws:sqs"))],
      .number (go "7")])]
    [(go "eventSource", .string (go "aws:sqs"))] [.number (go "7")] rfl rfl rfl rfl).2.2

/-- C4: an event that decodes to a mapping without "requestContext" whose "Records" is an
empty sequence, is not a sequence, or starts with an element that is not a mapping or is
a mapping without the key "eventSource", gets the run of the default generic handler:
its one log line and its reply with a nil error. The elements after the first are
arbitrary. -/
theorem router_unstructured (J : Json) (event : Bytes) (eventMap : GoMap) (records : Value)
    (hmap : J.Unmarshal J.decodeMap event = .ok eventMap)
    (hctx : eventMap.lookup (go "requestContext") = none)
    (hrec : eventMap.lookup (go "Records") = some records)
    (hshape : records = .array [] ∨ (∀ xs, records ≠ .array xs) ∨
      ∃ first rest, records = .array (first :: rest) ∧
        ((∀ kvs, first ≠ .object kvs) ∨
         ∃ kvs, first = .object kvs ∧ kvs.lookup (go "eventSource") = none)) :
    router J event =
      ([⟨"Received generic event: %s", [.str event]⟩],
        .ok (.generic [(go "message", .string (go "Hello from AWS Lambda with Go!")),
                       (go "event", .string event)], none)) := by
  have hfall : router.sqs J eventMap event = none := by
    apply router_sqs_fallthrough
    intro firstRecord rest hrec2
    rw [hrec] at hrec2
    have hrecords : records = .array (.object firstRecord :: rest) := Option.some.inj hrec2
    rcases hshape with h | h | ⟨first, rest2, h, hfirst⟩
    · rw [h] at hrecords
      cases hrecords
    · exact absurd hrecords (h _)
    · rw [h] at hrecords
      injection hrecords with hlist
      injection hlist with hhead htail
      rcases hfirst with hno | ⟨kvs, hkvs, hnone⟩
      · exact absurd hhead (hno _)
      · rw [hkvs] at hhead
        injection hhead with hk
        rw [← hk]
        exact hnone
  unfold router
  simp only [hmap, hctx, Option.isSome_none, Bool.false_eq_true, if_false, hfall]
  rfl

set_option maxRecDepth 100000 in
/-- C4 at the event `{"Records":[1,{"eventSource":"aws:sqs"}]}`, whose second element has
the shape of an SQS record. -/
theorem router_unstructured_witness :
    router stdJson (go "\x7b\"Records\":[1,\x7b\"eventSource\":\"aws:sqs\"\x7d]\x7d") =
      ([⟨"Received generic event: %s",
          [.str (go "\x7b\"Records\":[1,\x7b\"eventSource\":\"aws:sqs\"\x7d]\x7d")]⟩],
        .ok (.generic [(go "message", .string (go "Hello from AWS Lambda with Go!")),
          (go "event",
            .string (go "\x7b\"Records\":[1,\x7b\"eventSource\":\"aws:sqs\"\x7d]\x7d"))],
          none)) :=
  router_unstructured stdJson (go "\x7b\"Records\":[1,\x7b\"eventSource\":\"aws:sqs\"\x7d]\x7d")
    [(go "Records", .array [.number (go "1"),
      .object [(go "eventSource", .string (go "aws:sqs"))]])]
    (.array [.number (go "1"), .object [(go "eventSource", .string (go "aws:sqs"))]])
    rfl rfl rfl
    (Or.inr (Or.inr ⟨_, _, rfl, Or.inl (fun _ h => by cases h)⟩))

/-- C5: whenever a decode fails inside `router` (the generic decode of the raw event, the
typed decode of an event in the API Gateway block, or the typed decode of an event in the
SQS block) the returned pair is the reply of `handleGeneric` for the raw event, the
mapping with the fixed "message" and the raw input as "event", and a nil error. -/
theorem router_decode_failure (J : Json) (event : Bytes)
    (h : (∃ err, J.Unmarshal J.decodeMap event = .error err) ∨
      (∃ eventMap err, J.Unmarshal J.decodeMap event = .ok eventMap ∧
        (eventMap.lookup (go "requestContext")).isSome = true ∧
        J.Unmarshal J.decodeAPIGatewayProxyRequest event = .error err) ∨
      (∃ eventMap firstRecord rest err, J.Unmarshal J.decodeMap event = .ok eventMap ∧
        eventMap.lookup (go "requestContext") = none ∧
        eventMap.lookup (go "Records") = some (.array (.object firstRecord :: rest)) ∧
        (firstRecord.lookup (go "eventSource")).isSome = true ∧
        J.Unmarshal J.decodeSQSEvent event = .error err)) :
    (router J event).2 = .ok (.generic (handleGeneric event).2.1, (handleGeneric event).2.2) ∧
    (handleGeneric event).2 =
      ([(go "message", .string (go "Hello from AWS Lambda with Go!")),
        (go "event", .string event)], none) := by
  refine ⟨?_, rfl⟩
  rcases h with ⟨err, herr⟩ | ⟨eventMap, err, hmap, hctx, herr⟩ |
    ⟨eventMap, firstRecord, rest, err, hmap, hctx, hrec, hsrc, herr⟩
  · unfold router
    rw [herr]
    rfl
  · rw [router_api_block J event eventMap hmap hctx, herr]
    rfl
  · rw [router_sqs_block J event eventMap firstRecord rest hmap hctx hrec hsrc, herr]
    rfl

set_option maxRecDepth 100000 in
/-- C5 at the event `{"requestContext":7,"path":7}`, whose typed decode fails: "path" is a
string field. -/
theorem router_decode_failure_witness :
    (router stdJson (go "\x7b\"requestContext\":7,\"path\":7\x7d")).2 =
      .ok (.generic [(go "message", .string (go "Hello from AWS Lambda with Go!")),
        (go "event", .string (go "\x7b\"requestContext\":7,\"path\":7\x7d"))], none) :=
  (router_decode_failure stdJson (go "\x7b\"requestContext\":7,\"path\":7\x7d")
    (Or.inr (Or.inl ⟨[(go "requestContext", .number (go "7")), (go "path", .number (go "7"))],
      StdJson.typeError, rfl, rfl, rfl⟩))).1

set_option maxRecDepth 100000 in
/-- C6, as stated, fails on the empty body: it is not valid JSON, and `handleAPIGateway`
skips the parse and answers with status 200. -/
theorem handleAPIGateway_empty_body :
    stdJson.checkValid ([] : Bytes) = false ∧
    (handleAPIGateway stdJson (postHello [])).2 =
      ({ StatusCode := 200,
         Headers := [(go "Content-Type", go "application/json"),
                     (go "Access-Control-Allow-Origin", go "*")],
         Body := go ("\x7b\"message\":\"Hello from AWS Lambda with Go!\"," ++
           "\"method\":\"POST\",\"path\":\"/hello\"\x7d") }, none) := by
  constructor
  · rfl
  · rfl

/-- C6, amended: for every request whose body is not empty and not syntactically valid
JSON, `handleAPIGateway` logs the parse error and returns status 400 with the body
`{"error": "Invalid request body"}` and a nil error. -/
theorem handleAPIGateway_invalid_body (J : Json) (request : APIGatewayProxyRequest)
    (hne : request.Body ≠ []) (hbad : J.checkValid request.Body = false) :
    handleAPIGateway J request =
      ([⟨"Received API Gateway request: %s %s", [.str request.HTTPMethod, .str request.Path]⟩,
        ⟨"Error parsing request body: %v", [.err (J.syntaxError request.Body)]⟩],
       { StatusCode := 400,
         Headers := [(go "Content-Type", go "application/json")],
         Body := go "\x7b\"error\": \"Invalid request body\"\x7d" },
       none) := by
  unfold handleAPIGateway
  simp only [Json.Unmarshal, hne, hbad, ne_eq, not_false_eq_true, if_true, Bool.false_eq_true,
    if_false]
  rfl

/-- C6, amended, at the truncated body `{"name":`. -/
theorem handleAPIGateway_invalid_body_witness :
    (handleAPIGateway stdJson (postHello (go "\x7b\"name\":"))).2 =
      ({ StatusCode := 400,
         Headers := [(go "Content-Type", go "application/json")],
         Body := go "\x7b\"error\": \"Invalid request body\"\x7d" }, none) :=
  congrArg Prod.snd
    (handleAPIGateway_invalid_body stdJson (postHello (go "\x7b\"name\":")) (by decide) rfl)

/-- C7: when `req` is the decoded request (the decoded body, or the zero value for an
empty body), `handleAPIGateway` returns status 200, both headers and a nil error, and its
body is the JSON text of a mapping with the fixed "message", the request's "method" and
"path", a "greeting" that is "Hello, n!" exactly when the decoded name n is not empty, and
an "echo" that is the decoded message exactly when that is not empty. -/
theorem handleAPIGateway_ok (J : Json) (request : APIGatewayProxyRequest) (req : Request)
    (hdec : (request.Body = [] ∧ req = {}) ∨
      J.Unmarshal J.decodeRequest request.Body = .ok req) :
    ∃ response : GoMap,
      handleAPIGateway J request =
        ([⟨"Received API Gateway request: %s %s",
            [.str request.HTTPMethod, .str request.Path]⟩],
         { StatusCode := 200,
           Headers := [(go "Content-Type", go "application/json"),
                       (go "Access-Control-Allow-Origin", go "*")],
           Body := J.encodeMap response },
         none) ∧
      response.lookup (go "message") = some (.string (go "Hello from AWS Lambda with Go!")) ∧
      response.lookup (go "method") = some (.string request.HTTPMethod) ∧
      response.lookup (go "path") = some (.string request.Path) ∧
      response.lookup (go "greeting") =
        (if req.Name ≠ [] then some (.string (go "Hello, " ++ req.Name ++ go "!")) else none) ∧
      response.lookup (go "echo") =
        (if req.Message ≠ [] then some (.string req.Message) else none) := by
  have hparsed : (if request.Body ≠ [] then J.Unmarshal J.decodeRequest request.Body
      else .ok {}) = .ok req := by
    rcases hdec with ⟨hbody, hreq⟩ | hok
    · simp [hbody, hreq]
    · have hne : request.Body ≠ [] := by
        intro hnil
        rw [hnil] at hok
        simp [Json.Unmarshal, J.checkValid_nil] at hok
      simp [hne, hok]
  unfold handleAPIGateway
  simp only [hparsed, Json.Marshal]
  by_cases hname : req.Name = [] <;> by_cases hmsg : req.Message = [] <;>
    simp only [hname, hmsg, ne_eq, not_true_eq_false, not_false_eq_true, if_false, if_true] <;>
    exact ⟨_, rfl, rfl, rfl, rfl, rfl, rfl⟩

set_option maxRecDepth 100000 in
/-- C7 at the body `{"name":"Ada"}`: status 200 and a body with the greeting
"Hello, Ada!" and no "echo". -/
theorem handleAPIGateway_ok_witness :
    stdJson.Unmarshal stdJson.decodeRequest (go "\x7b\"name\":\"Ada\"\x7d") =
      .ok { Name := go "Ada" } ∧
    (handleAPIGateway stdJson (postHello (go "\x7b\"name\":\"Ada\"\x7d"))).2 =
      ({ StatusCode := 200,
         Headers := [(go "Content-Type", go "application/json"),
                     (go "Access-Control-Allow-Origin", go "*")],
         Body := go ("\x7b\"greeting\":\"Hello, Ada!\"," ++
           "\"message\":\"Hello from AWS Lambda with Go!\"," ++
           "\"method\":\"POST\",\"path\":\"/hello\"\x7d") }, none) :=
  ⟨rfl,
    match handleAPIGateway_ok stdJson (postHello (go "\x7b\"name\":\"Ada\"\x7d"))
      { Name := go "Ada" } (Or.inr rfl) with
    | ⟨_, _, _⟩ => rfl⟩

set_option maxRecDepth 100000 in
/-- C8, as stated, fails on the reply to a body that is not valid JSON: status 400 with
the header "Content-Type" only, no "Access-Control-Allow-Origin". -/
theorem handleAPIGateway_error_headers :
    (handleAPIGateway stdJson (postHello (go "not json"))).2.1 =
      { StatusCode := 400,
        Headers := [(go "Content-Type", go "application/json")],
        Body := go "\x7b\"error\": \"Invalid request body\"\x7d" } ∧
    (handleAPIGateway stdJson (postHello (go "not json"))).2.1.Headers.lookup
      (go "Access-Control-Allow-Origin") = none :=
  ⟨rfl, rfl⟩

/-- C8, amended: every response of `handleAPIGateway` carries "Content-Type" equal to
"application/json"; it carries "Access-Control-Allow-Origin" equal to "*" exactly when
its status is 200, and the error responses carry no such header. -/
theorem handleAPIGateway_headers (J : Json) (request : APIGatewayProxyRequest) :
    (handleAPIGateway J request).2.1.Headers.lookup (go "Content-Type") =
      some (go "application/json") ∧
    ((handleAPIGateway J request).2.1.StatusCode = 200 ↔
      (handleAPIGateway J request).2.1.Headers.lookup (go "Access-Control-Allow-Origin") =
        some (go "*")) ∧
    ((handleAPIGateway J request).2.1.StatusCode ≠ 200 →
      (handleAPIGateway J request).2.1.Headers.lookup (go "Access-Control-Allow-Origin") =
        none) := by
  unfold handleAPIGateway
  dsimp only [Json.Marshal]
  split
  · refine ⟨rfl, ⟨fun h => ?_, fun h => ?_⟩, fun _ => rfl⟩
    · dsimp only at h
      exact absurd h (by decide)
    · have hnone : List.lookup (go "Access-Control-Allow-Origin")
          [(go "Content-Type", go "application/json")] = none := rfl
      dsimp only at h
      rw [hnone] at h
      cases h
  · exact ⟨rfl, ⟨fun _ => rfl, fun _ => rfl⟩, fun h => absurd rfl h⟩

set_option maxRecDepth 100000 in
/-- C9, as stated, fails on a record whose body is the valid JSON text `5`: the decode
into a string-keyed mapping fails, so the record is logged and skipped, not processed. -/
theorem handleSQS_valid_json_skipped :
    stdJson.checkValid (go "5") = true ∧
    handleSQS stdJson { Records := [{ MessageId := go "m1", Body := go "5" }] } =
      ([⟨"Received SQS event with %d records", [.int 1]⟩,
        ⟨"Processing SQS message: %s", [.str (go "m1")]⟩,
        ⟨"Message body: %s", [.str (go "5")]⟩,
        ⟨"Error parsing SQS message body: %v", [.err StdJson.typeError]⟩], none) :=
  ⟨rfl, rfl⟩

/-- C9, amended: `handleSQS` returns a nil error for every batch and visits every record
in order: after the line with the number of records, the log holds for each record, in
the order of the batch, its message id, its body, and then either the decode error (the
record is skipped and the loop goes on) or the decoded mapping (the record is processed).
A record whose body does not decode into a string-keyed mapping, every body that is not
valid JSON among them, is logged with its error and skipped; a record whose body decodes
into a string-keyed mapping is processed. For a reordering of the batch the returned error
is the same and the log is a reordering of the log. -/
theorem handleSQS_batch (J : Json) (records reordered : List SQSMessage)
    (hperm : records.Perm reordered) :
    (handleSQS J { Records := records }).2 = none ∧
    (handleSQS J { Records := records }).1 =
      ⟨"Received SQS event with %d records", [.int records.length]⟩ ::
        records.flatMap (fun record =>
          [⟨"Processing SQS message: %s", [.str record.MessageId]⟩,
           ⟨"Message body: %s", [.str record.Body]⟩,
           match J.Unmarshal J.decodeMap record.Body with
           | .error err => ⟨"Error parsing SQS message body: %v", [.err err]⟩
           | .ok message => ⟨"Processing message: %+v", [.val message]⟩]) ∧
    (∀ record ∈ records, J.checkValid record.Body = false →
      J.Unmarshal J.decodeMap record.Body = .error (J.syntaxError record.Body)) ∧
    (∀ record ∈ records, ∀ err, J.Unmarshal J.decodeMap record.Body = .error err →
      handleSQS.step J [] record =
        [⟨"Processing SQS message: %s", [.str record.MessageId]⟩,
         ⟨"Message body: %s", [.str record.Body]⟩,
         ⟨"Error parsing SQS message body: %v", [.err err]⟩] ∧
      ⟨"Error parsing SQS message body: %v", [.err err]⟩ ∈
        (handleSQS J { Records := records }).1) ∧
    (∀ record ∈ records, ∀ message, J.Unmarshal J.decodeMap record.Body = .ok message →
      handleSQS.step J [] record =
        [⟨"Processing SQS message: %s", [.str record.MessageId]⟩,
         ⟨"Message body: %s", [.str record.Body]⟩,
         ⟨"Processing message: %+v", [.val message]⟩] ∧
      ⟨"Processing message: %+v", [.val message]⟩ ∈
        (handleSQS J { Records := records }).1) ∧
    (handleSQS J { Records := reordered }).2 = (handleSQS J { Records := records }).2 ∧
    ((handleSQS J { Records := records }).1).Perm (handleSQS J { Records := reordered }).1 := by
  have hstep : handleSQS.step J [] = fun record =>
      [⟨"Processing SQS message: %s", [.str record.MessageId]⟩,
       ⟨"Message body: %s", [.str record.Body]⟩,
       match J.Unmarshal J.decodeMap record.Body with
       | .error err => ⟨"Error parsing SQS message body: %v", [.err err]⟩
       | .ok message => ⟨"Processing message: %+v", [.val message]⟩] :=
    funext (handleSQS_step J)
  have hmem : ∀ record ∈ records, ∀ entry ∈ handleSQS.step J [] record,
      entry ∈ (handleSQS J { Records := records }).1 := by
    intro record hrec entry hentry
    rw [handleSQS_log]
    exact List.mem_cons_of_mem _ (List.mem_flatMap.mpr ⟨record, hrec, hentry⟩)
  refine ⟨rfl, ?_, ?_, ?_, ?_, rfl, ?_⟩
  · rw [handleSQS_log, hstep]
  · intro record _ hbad
    simp [Json.Unmarshal, hbad]
  · intro record hrec err herr
    have hlines := handleSQS_step J record
    rw [herr] at hlines
    refine ⟨hlines, hmem record hrec _ ?_⟩
    rw [hlines]
    simp
  · intro record hrec message hok
    have hlines := handleSQS_step J record
    rw [hok] at hlines
    refine ⟨hlines, hmem record hrec _ ?_⟩
    rw [hlines]
    simp
  · rw [handleSQS_log, handleSQS_log]
    dsimp only
    rw [hperm.length_eq]
    exact List.Perm.cons _ (hperm.flatMap_right _)

set_option maxRecDepth 100000 in
/-- C9, amended, at a batch of three messages of which the second is not valid JSON,
and its reversal: messages 1 and 3 are processed, message 2 is logged and skipped. -/
theorem handleSQS_batch_witness :
    (handleSQS stdJson { Records := sampleBatch }).1 =
      [⟨"Received SQS event with %d records", [.int 3]⟩,
       ⟨"Processing SQS message: %s", [.str (go "m1")]⟩,
       ⟨"Message body: %s", [.str (go "\x7b\"job\":1\x7d")]⟩,
       ⟨"Processing message: %+v", [.val [(go "job", .number (go "1"))]]⟩,
       ⟨"Processing SQS message: %s", [.str (go "m2")]⟩,
       ⟨"Message body: %s", [.str (go "oops")]⟩,
       ⟨"Error parsing SQS message body: %v", [.err (StdJson.syntaxError (go "oops"))]⟩,
       ⟨"Processing SQS message: %s", [.str (go "m3")]⟩,
       ⟨"Message body: %s", [.str (go "\x7b\x7d")]⟩,
       ⟨"Processing message: %+v", [.val []]⟩] :=
  (handleSQS_batch stdJson sampleBatch sampleBatch.reverse
    (List.reverse_perm sampleBatch).symm).2.1.trans rfl

/-- The mail handler when the mail service rejects the send: it logs the cause and
returns status 500 with, as body, the JSON text of the record whose error is "Failed to
send email: " followed by the text of the cause. -/
theorem handleRequest_send_error (J : Json) (A : Aws) (request : APIGatewayProxyRequest)
    (emailReq : EmailRequest) (cause : GoError)
    (hdec : J.Unmarshal J.decodeEmailRequest request.Body = .ok emailReq)
    (hcfg : A.LoadDefaultConfig = none)
    (hsend : A.SendEmail
      { Source := go "noreply@yourdomain.com", ToAddresses := [emailReq.To],
        Subject := emailReq.Subject, Text := emailReq.Body } = .error cause) :
    handleRequest J A request =
      ([⟨"Error sending email: %v", [.err cause]⟩],
       .ok ({ StatusCode := 500,
              Headers := [(go "Content-Type", go "application/json")],
              Body := J.encodeEmailResponse
                { StatusCode := 500, Error := go "Failed to send email: " ++ cause.text } },
            none)) := by
  unfold handleRequest
  simp only [hdec, sendEmail, hcfg, hsend]

/-- The sibling path of the mail handler, when the AWS configuration does not load: it
logs the cause and returns status 500 with the JSON text of a record whose error is the
fixed text "Failed to load AWS configuration"; the cause is not part of the body. -/
theorem handleRequest_config_error (J : Json) (A : Aws) (request : APIGatewayProxyRequest)
    (emailReq : EmailRequest) (cause : GoError)
    (hdec : J.Unmarshal J.decodeEmailRequest request.Body = .ok emailReq)
    (hcfg : A.LoadDefaultConfig = some cause) :
    handleRequest J A request =
      ([⟨"Error loading AWS config: %v", [.err cause]⟩],
       .ok ({ StatusCode := 500,
              Headers := [(go "Content-Type", go "application/json")],
              Body := J.encodeEmailResponse
                { StatusCode := 500, Error := go "Failed to load AWS configuration" } },
            none)) := by
  unfold handleRequest
  simp only [hdec, sendEmail, hcfg]

set_option maxRecDepth 100000 in
/-- C10 fails on the code: when the mail service rejects the send, the reply has status
500 but its body holds the text of the cause, and two different causes on the same
request give two different bodies. -/
theorem handleRequest_leaks_cause :
    (handleRequest stdJson (rejecting "Throttling: rate exceeded") sendRequest).2 =
      .ok ({ StatusCode := 500,
             Headers := [(go "Content-Type", go "application/json")],
             Body := go ("\x7b\"statusCode\":500," ++
               "\"error\":\"Failed to send email: Throttling: rate exceeded\"\x7d") },
           none) ∧
    (handleRequest stdJson (rejecting "MessageRejected: address not verified") sendRequest).2 =
      .ok ({ StatusCode := 500,
             Headers := [(go "Content-Type", go "application/json")],
             Body := go ("\x7b\"statusCode\":500," ++
               "\"error\":\"Failed to send email: MessageRejected: address not verified\"\x7d") },
           none) ∧
    go ("\x7b\"statusCode\":500," ++
        "\"error\":\"Failed to send email: Throttling: rate exceeded\"\x7d") ≠
      go ("\x7b\"statusCode\":500," ++
        "\"error\":\"Failed to send email: MessageRejected: address not verified\"\x7d") :=
  ⟨rfl, rfl, by decide⟩

end FunctionGo
